import Mathlib

/-!
Shallow embedding of the scraping / data-normalization pipeline of the
repository (src/utils/scarper.py and the product-store interface in
src/utils/product_loader.py), together with proofs about the claims on it.

Conventions of the embedding:
* Python strings are Lean `String`s; work on characters uses `String.data`.
* Python `None` / missing values are `Option`.
* JSON values stored in product records are `JVal` (string, flat
  string-to-string dict, or null); a Python dict backing a product record
  is a total lookup function `String → Option JVal` (the dict `d.get(k)`
  view); `pyUpdate d s` is Python `d.update(s)` / `{**d, **s}` semantics.
* `datetime.now()` is passed as an explicit argument (`PyDateTime`).
* An HTTP fetch is an explicit outcome value (`FetchOutcome`): either a
  transport-level failure (timeout / connection error, i.e. the request
  raised) or a final status code with the fetched document.  A parsed
  HTML document is abstracted as `Doc`: its tables (rows of cells, each
  cell the stripped text with a flag telling `th` from `td`), the texts
  of its anchors, and its flattened page text.
* Code that can raise is embedded with `Except Unit`; a `try/except`
  block appears as an inner `Except`-valued body plus an outer handler.
-/

/-- A JSON-ish value as stored in a product record: a string, a flat
string-valued object (used for `sku_licenses`), or `null`. -/
inductive JVal where
  | str : String → JVal
  | jdict : List (String × String) → JVal
  | null : JVal
deriving DecidableEq

/-- A Python dict holding a product record, viewed as its lookup function
(`d.get(k)`). -/
def PDict : Type := String → Option JVal

/-- Python `d.update(s)` / `{**d, **s}`: every key present in `s` wins,
keys absent from `s` keep their value from `d`. -/
def pyUpdate (d s : PDict) : PDict := fun k =>
  match s k with
  | some v => some v
  | none => d k

/-- Python `d[key] = v` on a dict viewed as a lookup function. -/
def pyInsert (d : PDict) (key : String) (v : JVal) : PDict := fun k =>
  if k = key then some v else d k

/- ------------------------------------------------------------------ -/
/- Characters, substrings and case helpers                            -/
/- ------------------------------------------------------------------ -/

/-- ASCII decimal digit test (`\d` on the inputs the scraper handles). -/
def isDigitChar (c : Char) : Bool := '0' ≤ c && c ≤ '9'

/-- Value of an ASCII digit. -/
def digitVal (c : Char) : Nat := c.toNat - '0'.toNat

/-- Uppercase ASCII letter test (`[A-Z]`). -/
def isUpperChar (c : Char) : Bool := 'A' ≤ c && c ≤ 'Z'

/-- Python `str.lower()` (character-wise; ASCII data in practice). -/
def pyLower (s : String) : String := String.mk (s.data.map Char.toLower)

/-- Python `str.upper()`. -/
def pyUpper (s : String) : String := String.mk (s.data.map Char.toUpper)

/-- Case-insensitive character equality as Python regex `re.IGNORECASE`
and `str.lower()` comparisons behave on the ASCII data involved. -/
def ciCharEq (a b : Char) : Bool := a.toLower = b.toLower

/-- Whether `pre` is a prefix of `cs` under case-insensitive comparison. -/
def ciIsPrefix : List Char → List Char → Bool
  | [], _ => true
  | _ :: _, [] => false
  | p :: ps, c :: cs => ciCharEq p c && ciIsPrefix ps cs

/-- Whether `needle` occurs (case-sensitively) as a contiguous substring
of `hay`: Python `needle in hay`. -/
def listIsSubstr (needle : List Char) : List Char → Bool
  | [] => needle.isEmpty
  | c :: cs => needle.isPrefixOf (c :: cs) || listIsSubstr needle cs

/-- Python `needle in hay` on strings. -/
def strContains (hay needle : String) : Bool := listIsSubstr needle.data hay.data

/- ------------------------------------------------------------------ -/
/- Dates: strptime-style parsing and the status function              -/
/- ------------------------------------------------------------------ -/

/-- A Python `datetime` collapsed to what the pipeline compares: calendar
date plus a time-of-day component (seconds; `datetime.fromisoformat` of a
plain date yields midnight, `tod = 0`). -/
structure PyDateTime where
  year : Nat
  month : Nat
  day : Nat
  tod : Nat
deriving DecidableEq

/-- `datetime` comparison `a < b` (lexicographic). -/
def dtLt (a b : PyDateTime) : Bool :=
  a.year < b.year ||
    (a.year = b.year && (a.month < b.month ||
      (a.month = b.month && (a.day < b.day ||
        (a.day = b.day && a.tod < b.tod)))))

/-- Gregorian leap-year rule used by `datetime` for day validation. -/
def isLeapYear (y : Nat) : Bool := y % 4 = 0 && (y % 100 ≠ 0 || y % 400 = 0)

/-- Days in a month, as `datetime` validates day-of-month. -/
def daysInMonth (y m : Nat) : Nat :=
  if m = 2 then (if isLeapYear y then 29 else 28)
  else if m = 4 || m = 6 || m = 9 || m = 11 then 30
  else 31

/-- The `datetime(year, month, day)` constructor check: `ValueError`
unless `1 ≤ year ≤ 9999`, `1 ≤ month ≤ 12`, `1 ≤ day ≤ daysInMonth`. -/
def validYmd (y m d : Nat) : Bool :=
  1 ≤ y && y ≤ 9999 && 1 ≤ m && m ≤ 12 && 1 ≤ d && d ≤ daysInMonth y m

/-- Candidate readings of a 1-or-2-digit numeric field, in the order the
`strptime` regex alternation tries them: the two-digit reading (values
`1..hi`, as `%d` compiles to `3[01]|[12]\d|0[1-9]|[1-9]` and `%m` to
`1[0-2]|0[1-9]|[1-9]`) before the one-digit reading (values `1..9`).
Returning both candidates models the regex backtracking. -/
def numCands (hi : Nat) : List Char → List (Nat × List Char)
  | c1 :: c2 :: rest =>
    (if isDigitChar c1 && isDigitChar c2 then
      let v := 10 * digitVal c1 + digitVal c2
      if 1 ≤ v && v ≤ hi then [(v, rest)] else []
    else []) ++
    (if isDigitChar c1 && 1 ≤ digitVal c1 then [(digitVal c1, c2 :: rest)] else [])
  | [c1] => if isDigitChar c1 && 1 ≤ digitVal c1 then [(digitVal c1, [])] else []
  | [] => []

/-- First candidate for which the continuation succeeds (regex
backtracking over the alternatives). -/
def firstSome {α β : Type} : List α → (α → Option β) → Option β
  | [], _ => none
  | a :: as, f =>
    match f a with
    | some b => some b
    | none => firstSome as f

/-- `%Y`: exactly four digits (the `strptime` regex for `%Y` is
`\d\d\d\d`). -/
def year4 : List Char → Option (Nat × List Char)
  | a :: b :: c :: d :: rest =>
    if isDigitChar a && isDigitChar b && isDigitChar c && isDigitChar d then
      some (((digitVal a * 10 + digitVal b) * 10 + digitVal c) * 10 + digitVal d, rest)
    else none
  | _ => none

/-- One-or-more whitespace characters (`strptime` turns a blank in the
format into `\s+`). -/
def skipWs1 : List Char → Option (List Char)
  | c :: cs =>
    if c.isWhitespace then
      some (cs.dropWhile Char.isWhitespace)
    else none
  | [] => none

/-- English month names with their numbers, for `%B` (matched
case-insensitively because `strptime` compiles its regex with
`IGNORECASE`). -/
def monthNames : List (String × Nat) :=
  [("January", 1), ("February", 2), ("March", 3), ("April", 4), ("May", 5),
   ("June", 6), ("July", 7), ("August", 8), ("September", 9), ("October", 10),
   ("November", 11), ("December", 12)]

/-- `%B`: match a full month name case-insensitively. -/
def parseMonthName (cs : List Char) : Option (Nat × List Char) :=
  monthNames.foldr
    (fun (nm : String × Nat) acc =>
      if ciIsPrefix nm.1.data cs then some (nm.2, cs.drop nm.1.data.length) else acc)
    none

/-- `datetime.strptime(s, "%B %d, %Y")`, returning `(y, m, d)`. -/
def strptimeB (cs : List Char) : Option (Nat × Nat × Nat) :=
  match parseMonthName cs with
  | none => none
  | some (m, r0) =>
    match skipWs1 r0 with
    | none => none
    | some r1 =>
      firstSome (numCands 31 r1) fun dc =>
        match dc.2 with
        | ',' :: r2 =>
          match skipWs1 r2 with
          | none => none
          | some r3 =>
            match year4 r3 with
            | some (y, []) => some (y, m, dc.1)
            | _ => none
        | _ => none

/-- `datetime.strptime(s, "%m/%d/%Y")`. -/
def strptimeSlash (cs : List Char) : Option (Nat × Nat × Nat) :=
  firstSome (numCands 12 cs) fun mc =>
    match mc.2 with
    | '/' :: r1 =>
      firstSome (numCands 31 r1) fun dc =>
        match dc.2 with
        | '/' :: r2 =>
          match year4 r2 with
          | some (y, []) => some (y, mc.1, dc.1)
          | _ => none
        | _ => none
    | _ => none

/-- `datetime.strptime(s, "%Y-%m-%d")`. -/
def strptimeIso (cs : List Char) : Option (Nat × Nat × Nat) :=
  match year4 cs with
  | some (y, '-' :: r1) =>
    firstSome (numCands 12 r1) fun mc =>
      match mc.2 with
      | '-' :: r2 =>
        firstSome (numCands 31 r2) fun dc =>
          match dc.2 with
          | [] => some (y, mc.1, dc.1)
          | _ => none
      | _ => none
  | _ => none

/-- `datetime.strptime(s, "%d.%m.%Y")`. -/
def strptimeDot (cs : List Char) : Option (Nat × Nat × Nat) :=
  firstSome (numCands 31 cs) fun dc =>
    match dc.2 with
    | '.' :: r1 =>
      firstSome (numCands 12 r1) fun mc =>
        match mc.2 with
        | '.' :: r2 =>
          match year4 r2 with
          | some (y, []) => some (y, mc.1, dc.1)
          | _ => none
        | _ => none
    | _ => none

/-- Apply the `datetime` constructor validation after a regex-level
parse: a failure is a `ValueError`, which `_parse_date` catches and
treats as "this format did not parse". -/
def validated (r : Option (Nat × Nat × Nat)) : Option (Nat × Nat × Nat) :=
  match r with
  | some (y, m, d) => if validYmd y m d then some (y, m, d) else none
  | none => none

/-- Zero-pad a number to `w` digits, as `strftime` does. -/
def padNum (w n : Nat) : String :=
  let s := toString n
  String.mk (List.replicate (w - s.length) '0') ++ s

/-- `dt.strftime("%Y-%m-%d")`: month and day are zero-padded to two
digits; `%Y` prints the year unpadded (glibc behavior, relevant only to
years below 1000). -/
def strftimeYmd (y m d : Nat) : String :=
  toString y ++ "-" ++ padNum 2 m ++ "-" ++ padNum 2 d

/-- The four formats of `_parse_date`, tried in source order. -/
def tryFormats (cs : List Char) : Option (Nat × Nat × Nat) :=
  match validated (strptimeB cs) with
  | some r => some r
  | none =>
    match validated (strptimeSlash cs) with
    | some r => some r
    | none =>
      match validated (strptimeIso cs) with
      | some r => some r
      | none => validated (strptimeDot cs)

/-- Placeholder test of `_parse_date`:
`date_str.lower() in ['n/a', 'tbd', '-']`. -/
def isPlaceholder (s : String) : Bool :=
  pyLower s = "n/a" || pyLower s = "tbd" || pyLower s = "-"

/-- `CiscoMerakiScraper._parse_date` (src/utils/scarper.py:337-354):
`None` for empty or placeholder input; otherwise the first of the four
formats that parses, reformatted `YYYY-MM-DD`; if no format parses, the
original string is returned unchanged. -/
def _parse_date (s : String) : Option String :=
  if s = "" || isPlaceholder s then none
  else
    match tryFormats s.data with
    | some (y, m, d) => some (strftimeYmd y m d)
    | none => some s

/-- `datetime.fromisoformat` restricted to the date strings the pipeline
feeds it: exactly `YYYY-MM-DD` with zero-padded month and day, validated;
anything else raises (here: `none`).  The result is that date at
midnight. -/
def fromisoformat (s : String) : Option PyDateTime :=
  match s.data with
  | [y1, y2, y3, y4, h1, m1, m2, h2, d1, d2] =>
    if isDigitChar y1 && isDigitChar y2 && isDigitChar y3 && isDigitChar y4 &&
        h1 = '-' && isDigitChar m1 && isDigitChar m2 && h2 = '-' &&
        isDigitChar d1 && isDigitChar d2 then
      let y := ((digitVal y1 * 10 + digitVal y2) * 10 + digitVal y3) * 10 + digitVal y4
      let m := digitVal m1 * 10 + digitVal m2
      let d := digitVal d1 * 10 + digitVal d2
      if validYmd y m d then some ⟨y, m, d, 0⟩ else none
    else none
  | _ => none

/-- Python truthiness of an optional string (`if eol_announced:`). -/
def truthyOptStr : Option String → Bool
  | none => false
  | some s => s ≠ ""

/-- `CiscoMerakiScraper._determine_status` (src/utils/scarper.py:356-372)
with `datetime.now()` made an explicit argument `now`.  The body guards
`if not eos_date` (falsy: `None` or empty), then tries
`datetime.fromisoformat(eos_date)`; any exception is caught and yields
"Active". -/
def _determine_status (eol_announced eos_date : Option String) (now : PyDateTime) : String :=
  match eos_date with
  | none => "Active"
  | some s =>
    if s = "" then "Active"
    else
      match fromisoformat s with
      | none => "Active"
      | some eosDt =>
        if dtLt eosDt now then "End of Sale"
        else if truthyOptStr eol_announced then "EOL Announced"
        else "Active"

/- ------------------------------------------------------------------ -/
/- C1: determine_status                                               -/
/- ------------------------------------------------------------------ -/

/-- C1: `_determine_status` is a total function of `eol_announced`,
`eos_date` and `now` (the clock read is the explicit `now` argument of
the embedding; the Lean function is total by construction and has no
other inputs).  For optional dates: absent `eos_date` gives "Active"; an
`eos_date` that parses to a date earlier than `now` gives "End of Sale";
an `eos_date` not in the past with `eol_announced` present (a date, in
particular a non-empty string) gives "EOL Announced"; an `eos_date` not
in the past with `eol_announced` absent gives "Active". -/
theorem determine_status_of_dates (eol eos : Option String) (now : PyDateTime) :
    (eos = none → _determine_status eol eos now = "Active") ∧
    (∀ s d, eos = some s → fromisoformat s = some d → dtLt d now = true →
      _determine_status eol eos now = "End of Sale") ∧
    (∀ s d a, eos = some s → fromisoformat s = some d → dtLt d now = false →
      eol = some a → a ≠ "" → _determine_status eol eos now = "EOL Announced") ∧
    (∀ s d, eos = some s → fromisoformat s = some d → dtLt d now = false →
      eol = none → _determine_status eol eos now = "Active") := by
  refine ⟨?_, ?_, ?_, ?_⟩
  · rintro rfl; rfl
  · rintro s d rfl hiso hlt
    have hs : ¬ s = "" := by rintro rfl; simp [fromisoformat] at hiso
    simp [_determine_status, hs, hiso, hlt]
  · rintro s d a rfl hiso hlt rfl ha
    have hs : ¬ s = "" := by rintro rfl; simp [fromisoformat] at hiso
    simp [_determine_status, hs, hiso, hlt, truthyOptStr, ha]
  · rintro s d rfl hiso hlt rfl
    have hs : ¬ s = "" := by rintro rfl; simp [fromisoformat] at hiso
    simp [_determine_status, hs, hiso, hlt, truthyOptStr]

/-- Witness for C1: each branch of `determine_status_of_dates`
instantiated at concrete dates. -/
theorem determine_status_of_dates_witness :
    _determine_status (some "2026-01-01") none ⟨2026, 1, 15, 0⟩ = "Active" ∧
    _determine_status (some "2026-01-01") (some "2021-06-30") ⟨2026, 1, 15, 0⟩ = "End of Sale" ∧
    _determine_status (some "2026-01-01") (some "2027-01-01") ⟨2026, 1, 15, 0⟩ = "EOL Announced" ∧
    _determine_status none (some "2027-01-01") ⟨2026, 1, 15, 0⟩ = "Active" := by
  refine ⟨(determine_status_of_dates _ _ _).1 rfl, ?_, ?_, ?_⟩
  · exact (determine_status_of_dates _ _ _).2.1 "2021-06-30" ⟨2021, 6, 30, 0⟩ rfl
      (by decide) (by decide)
  · exact (determine_status_of_dates _ _ _).2.2.1 "2027-01-01" ⟨2027, 1, 1, 0⟩ "2026-01-01"
      rfl (by decide) (by decide) rfl (by decide)
  · exact (determine_status_of_dates _ _ _).2.2.2 "2027-01-01" ⟨2027, 1, 1, 0⟩ rfl
      (by decide) (by decide) rfl

/- ------------------------------------------------------------------ -/
/- C2: parse_date                                                     -/
/- ------------------------------------------------------------------ -/

/-- C2: `_parse_date` returns `none` exactly on empty input and the
placeholder tokens "n/a", "tbd", "-" (case-insensitively); otherwise it
tries the four formats in source order and returns the first successful
parse reformatted as YYYY-MM-DD; the four sample renderings of
2026-03-03 all normalize to "2026-03-03"; and when no format parses, the
original string comes back unchanged (e.g. "garbled-text"). -/
theorem parse_date_spec :
    _parse_date "March 3, 2026" = some "2026-03-03" ∧
    _parse_date "03/03/2026" = some "2026-03-03" ∧
    _parse_date "2026-03-03" = some "2026-03-03" ∧
    _parse_date "03.03.2026" = some "2026-03-03" ∧
    _parse_date "N/A" = none ∧
    _parse_date "" = none ∧
    _parse_date "garbled-text" = some "garbled-text" ∧
    (∀ s, _parse_date s = none ↔
      (s = "" ∨ pyLower s = "n/a" ∨ pyLower s = "tbd" ∨ pyLower s = "-")) ∧
    (∀ s y m d, ¬ s = "" → isPlaceholder s = false → tryFormats s.data = some (y, m, d) →
      _parse_date s = some (strftimeYmd y m d)) ∧
    (∀ s, ¬ s = "" → isPlaceholder s = false → tryFormats s.data = none →
      _parse_date s = some s) := by
  refine ⟨by decide, by decide, by decide, by decide, by decide, by decide, by decide,
    ?_, ?_, ?_⟩
  · intro s
    have hiff : isPlaceholder s = true ↔
        (pyLower s = "n/a" ∨ pyLower s = "tbd" ∨ pyLower s = "-") := by
      simp [isPlaceholder, or_assoc]
    have key : _parse_date s = none ↔ (s = "" ∨ isPlaceholder s = true) := by
      by_cases h0 : s = ""
      · simp [_parse_date, h0]
      · by_cases h1 : isPlaceholder s
        · simp [_parse_date, h0, h1]
        · cases htf : tryFormats s.data with
          | none => simp [_parse_date, h0, h1, htf]
          | some r => obtain ⟨y, m, d⟩ := r; simp [_parse_date, h0, h1, htf]
    rw [key]
    exact or_congr Iff.rfl hiff
  · intro s y m d h0 h1 h2
    simp [_parse_date, h0, h1, h2]
  · intro s h0 h1 h2
    simp [_parse_date, h0, h1, h2]

/-- Witness for C2: the general clauses of `parse_date_spec`
instantiated at concrete strings. -/
theorem parse_date_spec_witness :
    _parse_date "hello world" = some "hello world" ∧ _parse_date "TBD" = none ∧
    _parse_date "1/2/2026" = some "2026-01-02" := by
  refine ⟨?_, ?_, ?_⟩
  · exact parse_date_spec.2.2.2.2.2.2.2.2.2 "hello world" (by decide) (by decide) (by decide)
  · exact (parse_date_spec.2.2.2.2.2.2.2.1 "TBD").mpr (Or.inr (Or.inr (Or.inl (by decide))))
  · exact parse_date_spec.2.2.2.2.2.2.2.2.1 "1/2/2026" 2026 1 2 (by decide) (by decide)
      (by decide)

/- ------------------------------------------------------------------ -/
/- Model and SKU recognizers                                          -/
/- ------------------------------------------------------------------ -/

/-- The optional trailing group `(-\d+[A-Z]*)?` of the model regex: it
participates only when a dash followed by at least one digit is next;
returns the consumed suffix together with the unconsumed remainder. -/
def dashSuffix (r2 : List Char) : Option (List Char × List Char) :=
  match r2 with
  | '-' :: r3 =>
    let ds2 := r3.takeWhile isDigitChar
    let r4 := r3.dropWhile isDigitChar
    if ds2.isEmpty then none
    else some ('-' :: (ds2 ++ r4.takeWhile isUpperChar), r4.dropWhile isUpperChar)
  | _ => none

/-- One attempt of the regex `(MR|MX|MS|MV|MT)\d+[A-Z]*(-\d+[A-Z]*)?` at
the head of `cs` (greedy quantifiers take maximal runs; the optional
dash group participates only when a digit follows the dash). -/
def tryMatchAt (cs : List Char) : Option (List Char) :=
  match cs with
  | c1 :: c2 :: rest =>
    if c1 = 'M' && (c2 = 'R' || c2 = 'X' || c2 = 'S' || c2 = 'V' || c2 = 'T') then
      let ds := rest.takeWhile isDigitChar
      let r1 := rest.dropWhile isDigitChar
      if ds.isEmpty then none
      else
        let us := r1.takeWhile isUpperChar
        let r2 := r1.dropWhile isUpperChar
        match dashSuffix r2 with
        | some sufrem => some (c1 :: c2 :: (ds ++ us ++ sufrem.1))
        | none => some (c1 :: c2 :: (ds ++ us))
    else none
  | _ => none

/-- `re.search` position scan: try the pattern at each position, left to
right, returning the first (leftmost) match. -/
def searchModel : List Char → Option (List Char)
  | [] => none
  | c :: cs =>
    match tryMatchAt (c :: cs) with
    | some m => some m
    | none => searchModel cs

/-- `CiscoMerakiScraper._extract_model_number`
(src/utils/scarper.py:374-378): leftmost match of
`(MR|MX|MS|MV|MT)\d+[A-Z]*(-\d+[A-Z]*)?` in the product name, or `None`.
No case normalization is applied to the input. -/
def _extract_model_number (s : String) : Option String :=
  (searchModel s.data).map String.mk

/-- Character class `[A-Z0-9-]` of the license-SKU regex. -/
def licClass (c : Char) : Bool := isUpperChar c || isDigitChar c || c = '-'

/-- Fuel-driven scan implementing `re.findall(r'LIC-[A-Z0-9-]+', text)`:
at each position try to match `LIC-` followed by a maximal nonempty run
of `[A-Z0-9-]`; on success continue after the match, otherwise advance
one character. -/
def findLicAux : Nat → List Char → List (List Char)
  | 0, _ => []
  | _, [] => []
  | fuel + 1, 'L' :: 'I' :: 'C' :: '-' :: rest =>
    let run := rest.takeWhile licClass
    if run.isEmpty then findLicAux fuel ('I' :: 'C' :: '-' :: rest)
    else ('L' :: 'I' :: 'C' :: '-' :: run) :: findLicAux fuel (rest.dropWhile licClass)
  | fuel + 1, _ :: cs => findLicAux fuel cs

/-- `re.findall(r'LIC-[A-Z0-9-]+', text)`. -/
def findLicTokens (cs : List Char) : List (List Char) := findLicAux cs.length cs

/-- The `if/elif` classification of one license SKU token in
`_extract_skus_from_page` (src/utils/scarper.py:425-440), returning the
dict key it is stored under, or `none` when the token is discarded. -/
def classifyLicense (tok : String) : Option String :=
  if strContains tok "ENT" then
    if strContains tok "1YR" then some "1_year_ent"
    else if strContains tok "3YR" then some "3_year_ent"
    else if strContains tok "5YR" then some "5_year_ent"
    else none
  else if strContains tok "SEC" || strContains tok "ADV" then
    if strContains tok "1YR" then some "1_year_adv"
    else if strContains tok "3YR" then some "3_year_adv"
    else if strContains tok "5YR" then some "5_year_adv"
    else none
  else none

/-- Python dict assignment on an association list: replace the value in
place if the key exists, else append. -/
def dictInsert (m : List (String × String)) (k v : String) : List (String × String) :=
  match m with
  | [] => [(k, v)]
  | (k0, v0) :: rest => if k0 = k then (k0, v) :: rest else (k0, v0) :: dictInsert rest k v

/-- Case-insensitive search for the literal `pat` (the models fed in
contain no regex metacharacters): the first matching slice of the
subject, in its original casing, as `re.search(..., re.IGNORECASE)`
returns it. -/
def ciFindSlice (pat : List Char) : List Char → Option (List Char)
  | [] => if pat.isEmpty then some [] else none
  | c :: cs =>
    if ciIsPrefix pat (c :: cs) then some ((c :: cs).take pat.length)
    else ciFindSlice pat cs

/-- Result of `_extract_skus_from_page`. -/
structure Skus where
  hardware : Option String
  licenses : List (String × String)
deriving DecidableEq

/-- `CiscoMerakiScraper._extract_skus_from_page`
(src/utils/scarper.py:407-442) over the page text: hardware SKU is the
first case-insensitive occurrence of `<model>-HW`, upper-cased; license
SKUs are the `LIC-[A-Z0-9-]+` tokens classified by `classifyLicense`;
`None` when neither a hardware SKU nor any license was found. -/
def _extract_skus_from_page (text model : String) : Option Skus :=
  let hw := (ciFindSlice (model ++ "-HW").data text.data).map fun l => pyUpper (String.mk l)
  let lics := (findLicTokens text.data).foldl
    (fun acc tokL =>
      match classifyLicense (String.mk tokL) with
      | some key => dictInsert acc key (String.mk tokL)
      | none => acc) []
  if hw.isSome || !lics.isEmpty then some ⟨hw, lics⟩ else none

/- ------------------------------------------------------------------ -/
/- C8: extract_model                                                  -/
/- ------------------------------------------------------------------ -/

/-- The shape of the regex `(MR|MX|MS|MV|MT)\d+[A-Z]*(-\d+[A-Z]*)?`:
family prefix, one or more digits, zero or more uppercase letters, and
optionally a dash followed by digits and uppercase letters. -/
def modelShapeP (m : List Char) : Prop :=
  ∃ c2 ds us tail, m = 'M' :: c2 :: (ds ++ us ++ tail) ∧
    (c2 = 'R' ∨ c2 = 'X' ∨ c2 = 'S' ∨ c2 = 'V' ∨ c2 = 'T') ∧
    ds ≠ [] ∧ (∀ c ∈ ds, isDigitChar c = true) ∧ (∀ c ∈ us, isUpperChar c = true) ∧
    (tail = [] ∨ ∃ ds2 us2, tail = '-' :: (ds2 ++ us2) ∧ ds2 ≠ [] ∧
      (∀ c ∈ ds2, isDigitChar c = true) ∧ (∀ c ∈ us2, isUpperChar c = true))

theorem dashSuffix_spec (r2 suf rem : List Char) (h : dashSuffix r2 = some (suf, rem)) :
    suf ++ rem = r2 ∧ ∃ ds2 us2, suf = '-' :: (ds2 ++ us2) ∧ ds2 ≠ [] ∧
      (∀ c ∈ ds2, isDigitChar c = true) ∧ (∀ c ∈ us2, isUpperChar c = true) := by
  match r2 with
  | [] => simp [dashSuffix] at h
  | x :: r3 =>
    by_cases hx : x = '-'
    case neg => simp [dashSuffix, hx] at h
    subst hx
    simp only [dashSuffix] at h
    by_cases hds2 : (r3.takeWhile isDigitChar).isEmpty
    · simp [hds2] at h
    · simp only [hds2, Bool.false_eq_true, if_false, Option.some.injEq, Prod.mk.injEq] at h
      obtain ⟨rfl, rfl⟩ := h
      have hr3 : r3.takeWhile isDigitChar ++ r3.dropWhile isDigitChar = r3 :=
        List.takeWhile_append_dropWhile _ _
      have hr4 : (r3.dropWhile isDigitChar).takeWhile isUpperChar ++
          (r3.dropWhile isDigitChar).dropWhile isUpperChar = r3.dropWhile isDigitChar :=
        List.takeWhile_append_dropWhile _ _
      constructor
      · simp only [List.cons_append, List.append_assoc, hr4]
        rw [hr3]
      · exact ⟨_, _, rfl, by simpa [List.isEmpty_iff] using hds2,
          fun c hc => List.mem_takeWhile_imp hc, fun c hc => List.mem_takeWhile_imp hc⟩

theorem tryMatchAt_shape (cs m : List Char) (h : tryMatchAt cs = some m) :
    modelShapeP m ∧ m <+: cs := by
  match cs with
  | [] => simp [tryMatchAt] at h
  | [c] => simp [tryMatchAt] at h
  | c1 :: c2 :: rest =>
    simp only [tryMatchAt] at h
    by_cases hf : (c1 = 'M' && (c2 = 'R' || c2 = 'X' || c2 = 'S' || c2 = 'V' || c2 = 'T')) = true
    case neg => simp [hf] at h
    simp only [hf, if_true] at h
    obtain ⟨hc1, hc2⟩ : c1 = 'M' ∧ (c2 = 'R' ∨ c2 = 'X' ∨ c2 = 'S' ∨ c2 = 'V' ∨ c2 = 'T') := by
      simpa [or_assoc] using hf
    subst hc1
    by_cases hds : (rest.takeWhile isDigitChar).isEmpty
    · simp [hds] at h
    · simp only [hds, Bool.false_eq_true, if_false] at h
      have hrest : rest.takeWhile isDigitChar ++ rest.dropWhile isDigitChar = rest :=
        List.takeWhile_append_dropWhile _ _
      have hr1 : (rest.dropWhile isDigitChar).takeWhile isUpperChar ++
          (rest.dropWhile isDigitChar).dropWhile isUpperChar = rest.dropWhile isDigitChar :=
        List.takeWhile_append_dropWhile _ _
      have hdsne : rest.takeWhile isDigitChar ≠ [] := by
        simpa [List.isEmpty_iff] using hds
      have hdsall : ∀ c ∈ rest.takeWhile isDigitChar, isDigitChar c = true := fun c hc =>
        List.mem_takeWhile_imp hc
      have husall : ∀ c ∈ (rest.dropWhile isDigitChar).takeWhile isUpperChar,
          isUpperChar c = true := fun c hc => List.mem_takeWhile_imp hc
      cases hdash : dashSuffix ((rest.dropWhile isDigitChar).dropWhile isUpperChar) with
      | none =>
        rw [hdash] at h
        obtain rfl : 'M' :: c2 :: (rest.takeWhile isDigitChar ++
            (rest.dropWhile isDigitChar).takeWhile isUpperChar) = m := by simpa using h
        refine ⟨⟨c2, _, _, [], by simp, hc2, hdsne, hdsall, husall, Or.inl rfl⟩,
          ⟨(rest.dropWhile isDigitChar).dropWhile isUpperChar, ?_⟩⟩
        simp only [List.cons_append, List.append_assoc, hr1]
        rw [hrest]
      | some sufrem =>
        rw [hdash] at h
        obtain ⟨hsr, ds2, us2, hsuf, hds2ne, hds2all, hus2all⟩ :=
          dashSuffix_spec _ _ _ (by rw [hdash])
        obtain rfl : 'M' :: c2 :: (rest.takeWhile isDigitChar ++
            ((rest.dropWhile isDigitChar).takeWhile isUpperChar ++ sufrem.1)) = m := by
          simpa [List.append_assoc] using h
        refine ⟨⟨c2, _, _, sufrem.1, by simp [List.append_assoc], hc2, hdsne, hdsall, husall,
          Or.inr ⟨ds2, us2, hsuf, hds2ne, hds2all, hus2all⟩⟩, ⟨sufrem.2, ?_⟩⟩
        simp only [List.cons_append, List.append_assoc, hsr, hr1]
        rw [hrest]

theorem searchModel_shape (cs m : List Char) (h : searchModel cs = some m) :
    modelShapeP m ∧ m <:+: cs := by
  induction cs with
  | nil => simp [searchModel] at h
  | cons c cs ih =>
    simp only [searchModel] at h
    cases ht : tryMatchAt (c :: cs) with
    | some m0 =>
      rw [ht] at h
      obtain rfl : m0 = m := by simpa using h
      obtain ⟨hs, hp⟩ := tryMatchAt_shape _ _ ht
      exact ⟨hs, hp.isInfix⟩
    | none =>
      rw [ht] at h
      obtain ⟨hs, hi⟩ := ih h
      exact ⟨hs, List.infix_cons hi⟩

/-- C8 counterexample: the claim says the regex match is applied after
normalizing the input to consistent casing; the code applies no case
normalization, so a lowercase rendering of a model is not recognized at
all, while the same input normalized to uppercase would match. -/
theorem extract_model_no_case_normalization :
    _extract_model_number "meraki ms225-48fp" = none ∧
    _extract_model_number "MERAKI MS225-48FP" = some "MS225-48FP" := by
  constructor <;> decide

/-- C8 (amended): `_extract_model_number` returns the first (leftmost)
substring of its input matching
`(MR|MX|MS|MV|MT)\d+[A-Z]*(-\d+[A-Z]*)?`, with no case normalization of
the input (matching is case-sensitive throughout); every returned value
has the pattern shape and occurs contiguously in the input, and in
particular the two examples of the claim hold. -/
theorem extract_model_spec :
    _extract_model_number "Meraki MS225-48FP" = some "MS225-48FP" ∧
    _extract_model_number "some random text" = none ∧
    (∀ s m, _extract_model_number s = some m → modelShapeP m.data ∧ m.data <:+: s.data) := by
  refine ⟨by decide, by decide, ?_⟩
  intro s m h
  simp only [_extract_model_number, Option.map_eq_some'] at h
  obtain ⟨l, hl, rfl⟩ := h
  exact searchModel_shape _ _ hl

/-- Witness for C8 (amended): the general clause of `extract_model_spec`
instantiated at a concrete input. -/
theorem extract_model_spec_witness :
    modelShapeP "MS225-48FP".data ∧ "MS225-48FP".data <:+: "Meraki MS225-48FP".data :=
  extract_model_spec.2.2 "Meraki MS225-48FP" "MS225-48FP" (by decide)

/- ------------------------------------------------------------------ -/
/- C9: extract_skus                                                   -/
/- ------------------------------------------------------------------ -/

/-- The claim's reading of the license classifier: a token is kept iff
one of ENT/SEC/ADV and one of 1YR/3YR/5YR occur as substrings, and the
key is the duration-and-tier function of exactly those substring
occurrences. -/
def claimLicKey (tok : String) : Option String :=
  if (strContains tok "ENT" || strContains tok "SEC" || strContains tok "ADV") &&
      (strContains tok "1YR" || strContains tok "3YR" || strContains tok "5YR") then
    some ((if strContains tok "1YR" then "1" else if strContains tok "3YR" then "3" else "5")
      ++ "_year_" ++ (if strContains tok "ENT" then "ent" else "adv"))
  else none

/-- C9: the hardware SKU `<model>-HW` is recognized case-insensitively
and re-cased to upper on output; every `LIC-[A-Z0-9-]+` token is
classified into a duration/tier key determined exactly by which of
ENT/SEC/ADV and which of 1YR/3YR/5YR occur as substrings of the token,
with tokens lacking a tier keyword or a duration discarded; and on text
containing "MR46-HW" and "LIC-ENT-3YR" with model "MR46" the result is
hardware "MR46-HW" with licenses mapping "3_year_ent" to "LIC-ENT-3YR". -/
theorem extract_skus_spec :
    _extract_skus_from_page "Buy MR46-HW with LIC-ENT-3YR today" "MR46" =
      some ⟨some "MR46-HW", [("3_year_ent", "LIC-ENT-3YR")]⟩ ∧
    _extract_skus_from_page "blah mr46-Hw blah" "MR46" = some ⟨some "MR46-HW", []⟩ ∧
    _extract_skus_from_page "nothing here" "MR46" = none ∧
    _extract_skus_from_page "MR46-HW with LIC-MR46-3YR" "MR46" =
      some ⟨some "MR46-HW", []⟩ ∧
    _extract_skus_from_page "see LIC-ENT and LIC-MX64-SEC-5YR" "MR46" =
      some ⟨none, [("5_year_adv", "LIC-MX64-SEC-5YR")]⟩ ∧
    (∀ tok, classifyLicense tok = claimLicKey tok) := by
  refine ⟨by decide, by decide, by decide, by decide, by decide, ?_⟩
  intro tok
  unfold classifyLicense claimLicKey
  by_cases h1 : strContains tok "ENT" <;>
    by_cases h2 : strContains tok "SEC" <;>
    by_cases h3 : strContains tok "ADV" <;>
    by_cases h4 : strContains tok "1YR" <;>
    by_cases h5 : strContains tok "3YR" <;>
    by_cases h6 : strContains tok "5YR" <;>
    simp [h1, h2, h3, h4, h5, h6]

/- ------------------------------------------------------------------ -/
/- The product store (product_loader.py)                              -/
/- ------------------------------------------------------------------ -/

/-- The persistent product store: the category-keyed collections that
`ProductLoader.load_all_products` keeps in `self.products` (one entry
per loaded `products_<cat>.json` file, in load order), with the
in-memory view and the files kept in sync by the reload after each
write. -/
def Store : Type := List (String × List PDict)

/-- `ProductLoader.get_products_by_category`
(src/utils/product_loader.py:67-69): `self.products.get(category.lower(), [])`. -/
def get_products_by_category (category : String) (st : Store) : List PDict :=
  match st.find? (fun e => e.1 = pyLower category) with
  | some e => e.2
  | none => []

/-- All products in category iteration order
(`ProductLoader.get_all_products` without the `_category_file` tag). -/
def allProducts (st : Store) : List PDict := (st.map (fun e => e.2)).flatten

/-- `ProductLoader.get_product_by_id` (src/utils/product_loader.py:71-77):
first product over all categories whose `id` value equals the given
string. -/
def get_product_by_id (pid : String) (st : Store) : Option PDict :=
  (allProducts st).find? (fun p => p "id" == some (JVal.str pid))

/-- The update-or-append loop of `ProductLoader.save_product`
(src/utils/product_loader.py:159-168) on one category's product list:
replace the first record whose `id` equals the incoming record's `id`,
else append.  Reading `id` of a record that lacks the key is a Python
`KeyError` (`none` here). -/
def upsertList (q : PDict) : List PDict → Option (List PDict)
  | [] => some [q]
  | p :: rest =>
    match p "id", q "id" with
    | some pv, some qv =>
      if pv = qv then some (q :: rest)
      else (upsertList q rest).map (fun l => p :: l)
    | _, _ => none

/-- `ProductLoader.save_product` (src/utils/product_loader.py:150-175):
write the record into the `products_<category.lower()>.json` collection
(update in place by `id` or append) and reload.  A missing collection is
a `FileNotFoundError`, a record without `id` a `KeyError`; both are
`none` here. -/
def save_product (category : String) (q : PDict) : Store → Option Store
  | [] => none
  | (c, l) :: rest =>
    if c = pyLower category then (upsertList q l).map (fun l2 => (c, l2) :: rest)
    else (save_product category q rest).map (fun st2 => (c, l) :: st2)

/-- The new-product literal of `scrape_all_mr_datasheets`
(src/utils/scarper.py:319-324) seeded with `id`, display name and
category and merged with the scraped fields (`{..., **specs}`:
`specs` wins per key).  The source instantiates the category at `'mr'`
with record field `'MR'` (= `pyUpper "mr"`). -/
def newProduct (category pid model : String) (specs : PDict) : PDict :=
  pyUpdate
    (fun k =>
      if k = "id" then some (JVal.str pid)
      else if k = "name" then some (JVal.str ("Meraki " ++ model))
      else if k = "category" then some (JVal.str (pyUpper category))
      else none)
    specs

/-- The store-reconciliation step of `scrape_all_mr_datasheets`
(src/utils/scarper.py:308-327), the category being `'mr'` in the source:
look up an existing product by the lowercased model, shallow-merge the
scraped fields over it (`existing_product.update(specs)`) and save, or
create and save a fresh record. -/
def upsert (category model : String) (specs : PDict) (st : Store) : Option Store :=
  match get_product_by_id (pyLower model) st with
  | some p => save_product category (pyUpdate p specs) st
  | none => save_product category (newProduct category (pyLower model) model specs) st

/- ------------------------------------------------------------------ -/
/- Store lemmas for C5 and C6                                         -/
/- ------------------------------------------------------------------ -/

theorem pyUpdate_idem (p s : PDict) : pyUpdate (pyUpdate p s) s = pyUpdate p s := by
  funext k
  unfold pyUpdate
  cases s k <;> rfl

/-- The `id` predicate `get_product_by_id` scans with. -/
def idPred (t : JVal) : PDict → Bool := fun p => p "id" == some t

theorem upsertList_self (q : PDict) (qv : JVal) (hq : q "id" = some qv)
    (l l' : List PDict) (h : upsertList q l = some l') : upsertList q l' = some l' := by
  induction l generalizing l' with
  | nil =>
    obtain rfl : [q] = l' := by simpa [upsertList] using h
    simp [upsertList, hq]
  | cons p rest ih =>
    simp only [upsertList] at h
    cases hp : p "id" with
    | none => simp [hp, hq] at h
    | some pv =>
      simp only [hp, hq] at h
      by_cases he : pv = qv
      · subst he
        simp only [if_pos rfl] at h
        obtain rfl : q :: rest = l' := by simpa using h
        simp [upsertList, hq]
      · simp only [if_neg he] at h
        cases hrec : upsertList q rest with
        | none => simp [hrec] at h
        | some rest' =>
          simp only [hrec, Option.map_some'] at h
          obtain rfl : p :: rest' = l' := by simpa using h
          simp [upsertList, hp, hq, if_neg he, ih rest' hrec]

theorem upsertList_find_some (w : PDict) (t : JVal) (l l' : List PDict) (r : PDict)
    (h : upsertList w l = some l') (hf : l'.find? (idPred t) = some r) :
    r = w ∨ l.find? (idPred t) = some r := by
  induction l generalizing l' with
  | nil =>
    obtain rfl : [w] = l' := by simpa [upsertList] using h
    left
    rcases List.find?_cons_eq_some.mp hf with ⟨-, rfl⟩ | ⟨-, h3⟩
    · rfl
    · simp at h3
  | cons p rest ih =>
    simp only [upsertList] at h
    cases hp : p "id" with
    | none => simp [hp] at h
    | some pv =>
      cases hq : w "id" with
      | none => simp [hp, hq] at h
      | some qv =>
        simp only [hp, hq] at h
        by_cases he : pv = qv
        · subst he
          simp only [if_pos rfl] at h
          obtain rfl : w :: rest = l' := by simpa using h
          have heq : idPred t p = idPred t w := by simp [idPred, hp, hq]
          rcases List.find?_cons_eq_some.mp hf with ⟨-, rfl⟩ | ⟨hwf, h3⟩
          · exact Or.inl rfl
          · refine Or.inr (List.find?_cons_eq_some.mpr (Or.inr ⟨?_, h3⟩))
            rw [heq]
            exact hwf
        · simp only [if_neg he] at h
          cases hrec : upsertList w rest with
          | none => simp [hrec] at h
          | some rest' =>
            simp only [hrec, Option.map_some'] at h
            obtain rfl : p :: rest' = l' := by simpa using h
            rcases List.find?_cons_eq_some.mp hf with ⟨hpt, rfl⟩ | ⟨hpf, h3⟩
            · exact Or.inr (List.find?_cons_eq_some.mpr (Or.inl ⟨hpt, rfl⟩))
            · rcases ih rest' hrec h3 with hw | hr
              · exact Or.inl hw
              · exact Or.inr (List.find?_cons_eq_some.mpr (Or.inr ⟨hpf, hr⟩))

theorem upsertList_find_none (w : PDict) (t : JVal) (l l' : List PDict)
    (h : upsertList w l = some l') (hf : l'.find? (idPred t) = none) :
    l.find? (idPred t) = none := by
  induction l generalizing l' with
  | nil => simp
  | cons p rest ih =>
    simp only [upsertList] at h
    cases hp : p "id" with
    | none => simp [hp] at h
    | some pv =>
      cases hq : w "id" with
      | none => simp [hp, hq] at h
      | some qv =>
        simp only [hp, hq] at h
        by_cases he : pv = qv
        · subst he
          simp only [if_pos rfl] at h
          obtain rfl : w :: rest = l' := by simpa using h
          rw [List.find?_eq_none] at hf ⊢
          intro x hx
          rcases List.mem_cons.mp hx with rfl | hx
          · have heq : idPred t x = idPred t w := by simp [idPred, hp, hq]
            rw [heq]
            exact hf w (List.mem_cons_self _ _)
          · exact hf x (List.mem_cons_of_mem _ hx)
        · simp only [if_neg he] at h
          cases hrec : upsertList w rest with
          | none => simp [hrec] at h
          | some rest' =>
            simp only [hrec, Option.map_some'] at h
            obtain rfl : p :: rest' = l' := by simpa using h
            rw [List.find?_eq_none] at hf ⊢
            intro x hx
            rcases List.mem_cons.mp hx with rfl | hx
            · exact hf x (List.mem_cons_self _ _)
            · have hnone : rest.find? (idPred t) = none := by
                apply ih rest' hrec
                rw [List.find?_eq_none]
                intro y hy
                exact hf y (List.mem_cons_of_mem _ hy)
              rw [List.find?_eq_none] at hnone
              exact hnone x hx

theorem allProducts_cons (c : String) (l : List PDict) (rest : Store) :
    allProducts ((c, l) :: rest) = l ++ allProducts rest := by
  simp [allProducts]

theorem save_product_self (cat : String) (w : PDict) (wv : JVal) (hw : w "id" = some wv)
    (st st' : Store) (h : save_product cat w st = some st') :
    save_product cat w st' = some st' := by
  induction st generalizing st' with
  | nil => simp [save_product] at h
  | cons e rest ih =>
    obtain ⟨c, l⟩ := e
    simp only [save_product] at h
    by_cases hc : c = pyLower cat
    · simp only [if_pos hc] at h
      cases hu : upsertList w l with
      | none => simp [hu] at h
      | some l2 =>
        simp only [hu, Option.map_some'] at h
        obtain rfl : (c, l2) :: rest = st' := by simpa using h
        simp [save_product, if_pos hc, upsertList_self w wv hw l l2 hu]
    · simp only [if_neg hc] at h
      cases hrec : save_product cat w rest with
      | none => simp [hrec] at h
      | some rest' =>
        simp only [hrec, Option.map_some'] at h
        obtain rfl : (c, l) :: rest' = st' := by simpa using h
        simp [save_product, if_neg hc, ih rest' hrec]

theorem save_find_some (cat : String) (w : PDict) (t : JVal) (st st' : Store) (r : PDict)
    (h : save_product cat w st = some st')
    (hf : (allProducts st').find? (idPred t) = some r) :
    r = w ∨ (allProducts st).find? (idPred t) = some r := by
  induction st generalizing st' with
  | nil => simp [save_product] at h
  | cons e rest ih =>
    obtain ⟨c, l⟩ := e
    simp only [save_product] at h
    by_cases hc : c = pyLower cat
    · simp only [if_pos hc] at h
      cases hu : upsertList w l with
      | none => simp [hu] at h
      | some l2 =>
        simp only [hu, Option.map_some'] at h
        obtain rfl : (c, l2) :: rest = st' := by simpa using h
        rw [allProducts_cons, List.find?_append] at hf
        rw [allProducts_cons, List.find?_append]
        cases hl2 : l2.find? (idPred t) with
        | some r0 =>
          rw [hl2] at hf
          obtain rfl : r0 = r := by simpa using hf
          rcases upsertList_find_some w t l l2 _ hu hl2 with hwr | hlr
          · exact Or.inl hwr
          · rw [hlr]
            exact Or.inr rfl
        | none =>
          rw [hl2] at hf
          rw [upsertList_find_none w t l l2 hu hl2]
          simp only [Option.or] at hf ⊢
          exact Or.inr hf
    · simp only [if_neg hc] at h
      cases hrec : save_product cat w rest with
      | none => simp [hrec] at h
      | some rest' =>
        simp only [hrec, Option.map_some'] at h
        obtain rfl : (c, l) :: rest' = st' := by simpa using h
        rw [allProducts_cons, List.find?_append] at hf
        rw [allProducts_cons, List.find?_append]
        cases hl : l.find? (idPred t) with
        | some r0 =>
          rw [hl] at hf
          obtain rfl : r0 = r := by simpa using hf
          exact Or.inr rfl
        | none =>
          rw [hl] at hf
          simp only [Option.or] at hf ⊢
          exact ih rest' hrec hf

theorem save_find_none (cat : String) (w : PDict) (t : JVal) (st st' : Store)
    (h : save_product cat w st = some st')
    (hf : (allProducts st').find? (idPred t) = none) :
    (allProducts st).find? (idPred t) = none := by
  induction st generalizing st' with
  | nil => simp [save_product] at h
  | cons e rest ih =>
    obtain ⟨c, l⟩ := e
    simp only [save_product] at h
    by_cases hc : c = pyLower cat
    · simp only [if_pos hc] at h
      cases hu : upsertList w l with
      | none => simp [hu] at h
      | some l2 =>
        simp only [hu, Option.map_some'] at h
        obtain rfl : (c, l2) :: rest = st' := by simpa using h
        rw [allProducts_cons, List.find?_append] at hf
        rw [allProducts_cons, List.find?_append]
        cases hl2 : l2.find? (idPred t) with
        | some r0 => simp [hl2] at hf
        | none =>
          rw [hl2] at hf
          simp only [Option.or] at hf
          rw [upsertList_find_none w t l l2 hu hl2]
          simpa using hf
    · simp only [if_neg hc] at h
      cases hrec : save_product cat w rest with
      | none => simp [hrec] at h
      | some rest' =>
        simp only [hrec, Option.map_some'] at h
        obtain rfl : (c, l) :: rest' = st' := by simpa using h
        rw [allProducts_cons, List.find?_append] at hf
        rw [allProducts_cons, List.find?_append]
        cases hl : l.find? (idPred t) with
        | some r0 => simp [hl] at hf
        | none =>
          rw [hl] at hf
          simp only [Option.or] at hf ⊢
          exact ih rest' hrec hf

theorem pyUpdate_id_isSome (p specs : PDict) (v : JVal) (hp : p "id" = some v) :
    ∃ wv, (pyUpdate p specs) "id" = some wv := by
  unfold pyUpdate
  cases hs : specs "id" with
  | some v2 => exact ⟨v2, by simp [hs]⟩
  | none => exact ⟨v, by simp [hs, hp]⟩

theorem get_eq_find (pid : String) (st : Store) :
    get_product_by_id pid st = (allProducts st).find? (idPred (JVal.str pid)) := rfl

/- ------------------------------------------------------------------ -/
/- C6: upsert idempotence                                             -/
/- ------------------------------------------------------------------ -/

/-- C6: the reconciliation step is idempotent: for every category, every
initial store state and every scraped record, applying the same scraped
record twice yields exactly the state of applying it once (including the
error cases, which agree as well). -/
theorem upsert_idempotent (category model : String) (specs : PDict) (st : Store) :
    (upsert category model specs st).bind (upsert category model specs) =
      upsert category model specs st := by
  cases hres : upsert category model specs st with
  | none => rfl
  | some st1 =>
    show upsert category model specs st1 = some st1
    unfold upsert at hres
    cases hg : get_product_by_id (pyLower model) st with
    | some p =>
      rw [hg] at hres
      have hg' : (allProducts st).find? (idPred (JVal.str (pyLower model))) = some p := by
        rw [← get_eq_find]
        exact hg
      have hpid : p "id" = some (JVal.str (pyLower model)) := by
        have h1 := List.find?_some hg'
        simpa [idPred] using h1
      obtain ⟨wv, hw⟩ := pyUpdate_id_isSome p specs _ hpid
      unfold upsert
      cases hg1 : get_product_by_id (pyLower model) st1 with
      | none =>
        exfalso
        have hg1' : (allProducts st1).find? (idPred (JVal.str (pyLower model))) = none := by
          rw [← get_eq_find]
          exact hg1
        have hnone := save_find_none category (pyUpdate p specs) _ st st1 hres hg1'
        rw [hg'] at hnone
        cases hnone
      | some r =>
        have hg1' : (allProducts st1).find? (idPred (JVal.str (pyLower model))) = some r := by
          rw [← get_eq_find]
          exact hg1
        rcases save_find_some category (pyUpdate p specs) _ st st1 r hres hg1' with rfl | hro
        · show save_product category (pyUpdate (pyUpdate p specs) specs) st1 = some st1
          rw [pyUpdate_idem]
          exact save_product_self category (pyUpdate p specs) wv hw st st1 hres
        · have hrp : r = p := by
            rw [hg'] at hro
            exact (Option.some.inj hro).symm
          subst hrp
          show save_product category (pyUpdate r specs) st1 = some st1
          exact save_product_self category (pyUpdate r specs) wv hw st st1 hres
    | none =>
      rw [hg] at hres
      have hgn : (allProducts st).find? (idPred (JVal.str (pyLower model))) = none := by
        rw [← get_eq_find]
        exact hg
      have hwid : ∃ wv, (newProduct category (pyLower model) model specs) "id" = some wv := by
        unfold newProduct
        apply pyUpdate_id_isSome _ specs (JVal.str (pyLower model))
        simp
      obtain ⟨wv, hw'⟩ := hwid
      unfold upsert
      cases hg1 : get_product_by_id (pyLower model) st1 with
      | none =>
        show save_product category (newProduct category (pyLower model) model specs) st1 =
          some st1
        exact save_product_self category _ wv hw' st st1 hres
      | some r =>
        have hg1' : (allProducts st1).find? (idPred (JVal.str (pyLower model))) = some r := by
          rw [← get_eq_find]
          exact hg1
        rcases save_find_some category _ _ st st1 r hres hg1' with rfl | hro
        · have hstab : pyUpdate (newProduct category (pyLower model) model specs) specs =
              newProduct category (pyLower model) model specs := by
            unfold newProduct
            exact pyUpdate_idem _ _
          show save_product category
            (pyUpdate (newProduct category (pyLower model) model specs) specs) st1 = some st1
          rw [hstab]
          exact save_product_self category _ wv hw' st st1 hres
        · exfalso
          rw [hgn] at hro
          cases hro

/- ------------------------------------------------------------------ -/
/- C5: shallow merge preserves unmentioned fields                     -/
/- ------------------------------------------------------------------ -/

/-- C5: when the upsert finds an existing record, it saves exactly the
shallow merge `existing.update(specs)`: every field present in the
incoming record wins, every field the incoming record does not mention
keeps its previous value, and no field of the existing record is
removed. -/
theorem upsert_merge_frame (category model : String) (specs : PDict) (st : Store) (p : PDict)
    (hg : get_product_by_id (pyLower model) st = some p) :
    upsert category model specs st = save_product category (pyUpdate p specs) st ∧
    (∀ k v, specs k = some v → pyUpdate p specs k = some v) ∧
    (∀ k, specs k = none → pyUpdate p specs k = p k) ∧
    (∀ k, (p k).isSome → (pyUpdate p specs k).isSome) := by
  refine ⟨?_, ?_, ?_, ?_⟩
  · unfold upsert
    rw [hg]
  · intro k v hk
    simp [pyUpdate, hk]
  · intro k hk
    simp [pyUpdate, hk]
  · intro k hk
    unfold pyUpdate
    cases hs : specs k with
    | some v => simp
    | none => simpa using hk

/-- A concrete existing product record for the C5 witness. -/
def p0C5 : PDict := fun k =>
  if k = "id" then some (JVal.str "mr46")
  else if k = "name" then some (JVal.str "Meraki MR46")
  else if k = "subcategory" then some (JVal.str "Indoor")
  else none

/-- A concrete scraped record for the C5 witness. -/
def specsC5 : PDict := fun k =>
  if k = "model" then some (JVal.str "MR46")
  else if k = "wifi_standard" then some (JVal.str "802.11ax")
  else none

/-- A concrete store for the C5 witness. -/
def stC5 : Store := [("mr", [p0C5])]

/-- Witness for C5 at a concrete store, record and scraped dict. -/
theorem upsert_merge_frame_witness :
    upsert "mr" "MR46" specsC5 stC5 = save_product "mr" (pyUpdate p0C5 specsC5) stC5 ∧
    (∀ k v, specsC5 k = some v → pyUpdate p0C5 specsC5 k = some v) ∧
    (∀ k, specsC5 k = none → pyUpdate p0C5 specsC5 k = p0C5 k) ∧
    (∀ k, (p0C5 k).isSome → (pyUpdate p0C5 specsC5 k).isSome) :=
  upsert_merge_frame "mr" "MR46" specsC5 stC5 p0C5 rfl

/- ------------------------------------------------------------------ -/
/- Fetching and documents                                             -/
/- ------------------------------------------------------------------ -/

/-- One table cell as BeautifulSoup exposes it to the scraper: its tag
kind (`th` or `td`) and its `get_text(strip=True)` content. -/
structure Cell where
  th : Bool
  txt : String
deriving DecidableEq

/-- A fetched-and-parsed HTML document, abstracted to exactly what the
scraper reads: its tables (lists of rows, each row a list of cells), the
text of each anchor (`find_all('a', href=True)` in document order), and
the flat page text (`soup.get_text()`). -/
structure Doc where
  tables : List (List (List Cell))
  links : List String
  text : String

/-- Outcome of one `self.session.get(url, timeout=10)` call: either the
request itself raised (timeout, DNS or connection failure), or it
completed with a final HTTP status code and body. -/
inductive FetchOutcome where
  | transport : FetchOutcome
  | status : Nat → Doc → FetchOutcome

/-- `response.raise_for_status()` raises exactly for 4xx and 5xx. -/
def isHttpError (code : Nat) : Bool := 400 ≤ code && code < 600

/- ------------------------------------------------------------------ -/
/- EOL-table scrape                                                   -/
/- ------------------------------------------------------------------ -/

/-- One entry of the scraped EOL mapping. -/
structure EolEntry where
  eol_announced : Option String
  eos_date : Option String
  status : String
  full_name : String
deriving DecidableEq

/-- The EOL map: `model.lower() -> entry`, a Python dict (assoc list
with in-place overwrite). -/
abbrev EolMap : Type := List (String × EolEntry)

/-- Python dict assignment for the EOL map. -/
def eolInsert (m : EolMap) (k : String) (v : EolEntry) : EolMap :=
  match m with
  | [] => [(k, v)]
  | (k0, v0) :: rest => if k0 = k then (k0, v) :: rest else (k0, v0) :: eolInsert rest k v

/-- Python `dict.get` for the EOL map. -/
def eolGet (m : EolMap) (k : String) : Option EolEntry :=
  match m with
  | [] => none
  | (k0, v0) :: rest => if k0 = k then some v0 else eolGet rest k

/-- The row loop of `scrape_meraki_eol_dates` (src/utils/scarper.py:59-85)
on one already-fetched document: for every table, for every row after
the first, take the `td` cells; with at least three of them, parse the
dates, derive the status, extract the model, and on a recognized model
store the entry under the lowercased model (later rows overwrite). -/
def buildEolMap (doc : Doc) (now : PyDateTime) : EolMap :=
  doc.tables.foldl
    (fun acc table =>
      (table.drop 1).foldl
        (fun acc row =>
          let cols := row.filter (fun cell => !cell.th)
          if 3 ≤ cols.length then
            let product := (cols.headD ⟨false, ""⟩).txt
            let eolAnnounced := _parse_date ((cols.drop 1).headD ⟨false, ""⟩).txt
            let eosDate := _parse_date ((cols.drop 2).headD ⟨false, ""⟩).txt
            let status := _determine_status eolAnnounced eosDate now
            match _extract_model_number product with
            | some model =>
              eolInsert acc (pyLower model)
                ⟨eolAnnounced, eosDate, status, product⟩
            | none => acc
          else acc)
        acc)
    []

/-- The `try` block of `scrape_meraki_eol_dates`
(src/utils/scarper.py:49-91): fetch, `raise_for_status`, then build the
map.  Raising is `Except.error`. -/
def scrape_meraki_eol_dates_body (f : FetchOutcome) (now : PyDateTime) :
    Except Unit EolMap :=
  match f with
  | .transport => .error ()
  | .status code doc =>
    if isHttpError code then .error ()
    else .ok (buildEolMap doc now)

/-- `CiscoMerakiScraper.scrape_meraki_eol_dates`
(src/utils/scarper.py:34-94): the whole body is wrapped in
`try/except Exception`, and the handler reports the error and returns
the empty dict, so the function never raises. -/
def scrape_meraki_eol_dates (f : FetchOutcome) (now : PyDateTime) : EolMap :=
  match scrape_meraki_eol_dates_body f now with
  | .ok m => m
  | .error _ => []

/- ------------------------------------------------------------------ -/
/- Single-datasheet scrape                                            -/
/- ------------------------------------------------------------------ -/

/-- The fixed spec-label dictionary of `_map_spec_name`
(src/utils/scarper.py:380-405), in source order. -/
def specNameMapping : List (String × String) :=
  [("Wi-Fi Standard", "wifi_standard"),
   ("Maximum Data Rate", "max_data_rate"),
   ("Spatial Streams", "spatial_streams"),
   ("Frequency Bands", "frequency_bands"),
   ("PoE Requirement", "poe_requirement"),
   ("Power Consumption", "max_power_consumption"),
   ("Ethernet Ports", "ethernet_ports"),
   ("Dimensions", "dimensions"),
   ("Weight", "weight"),
   ("Operating Temperature", "operating_temp"),
   ("Firewall Throughput", "firewall_throughput"),
   ("VPN Throughput", "vpn_throughput"),
   ("Recommended Users", "recommended_users"),
   ("Total Ports", "total_ports"),
   ("PoE Budget", "poe_budget"),
   ("Switching Capacity", "switching_capacity")]

/-- `CiscoMerakiScraper._map_spec_name`: first dictionary key that is a
case-insensitive substring of the raw label wins; otherwise `None`. -/
def _map_spec_name (raw : String) : Option String :=
  specNameMapping.foldr
    (fun kv acc => if strContains (pyLower raw) (pyLower kv.1) then some kv.2 else acc)
    none

/-- `Option String → JVal` for values written into a product record
(Python `None` becomes JSON null). -/
def optToJVal : Option String → JVal
  | none => .null
  | some s => .str s

/-- The spec-table extraction loop of `scrape_product_datasheet`
(src/utils/scarper.py:129-142): all rows, `th` and `td` cells alike;
for each row with at least two cells, map the first cell's label and
store the second cell's text under the mapped name (later rows
overwrite). -/
def extractSpecs (doc : Doc) (specs0 : PDict) : PDict :=
  doc.tables.foldl
    (fun acc table =>
      table.foldl
        (fun acc row =>
          if 2 ≤ row.length then
            let key := (row.headD ⟨false, ""⟩).txt
            let value := ((row.drop 1).headD ⟨false, ""⟩).txt
            match _map_spec_name key with
            | some specKey => pyInsert acc specKey (.str value)
            | none => acc
          else acc)
        acc)
    specs0

/-- The datasheet URL composed in `scrape_product_datasheet`
(src/utils/scarper.py:111). -/
def datasheetUrl (category model : String) : String :=
  "https://documentation.meraki.com/" ++ category ++
    "/Product_Information/Overviews_and_Datasheets/" ++ model ++ "_Datasheet"

/-- The `try` block of `scrape_product_datasheet`
(src/utils/scarper.py:109-153): fetch; on 404 report and return `None`;
`raise_for_status`; build the specs dict seeded with `model`,
`datasheet_url` and `scraped_at`; add table specs and SKUs. -/
def scrape_product_datasheet_body (category model : String) (f : FetchOutcome)
    (nowIso : String) : Except Unit (Option PDict) :=
  match f with
  | .transport => .error ()
  | .status code doc =>
    if code = 404 then .ok none
    else if isHttpError code then .error ()
    else
      let specs0 : PDict := fun k =>
        if k = "model" then some (.str model)
        else if k = "datasheet_url" then some (.str (datasheetUrl category model))
        else if k = "scraped_at" then some (.str nowIso)
        else none
      let specs1 := extractSpecs doc specs0
      let specs2 :=
        match _extract_skus_from_page doc.text model with
        | some sk =>
          pyInsert (pyInsert specs1 "sku_base" (optToJVal sk.hardware))
            "sku_licenses" (.jdict sk.licenses)
        | none => specs1
      .ok (some specs2)

/-- `CiscoMerakiScraper.scrape_product_datasheet`
(src/utils/scarper.py:96-157): the body is wrapped in
`try/except Exception` returning `None`, so the function never raises:
it yields the specs dict, or `None` on 404 and on any error. -/
def scrape_product_datasheet (category model : String) (f : FetchOutcome)
    (nowIso : String) : Option PDict :=
  match scrape_product_datasheet_body category model f nowIso with
  | .ok r => r
  | .error _ => none

/- ------------------------------------------------------------------ -/
/- C3: error propagation (refuted: errors are caught)                 -/
/- ------------------------------------------------------------------ -/

/-- A document with no tables, links or text. -/
def emptyDoc : Doc := ⟨[], [], ""⟩

/-- C3 counterexample: on a transport failure the inner `try` blocks do
raise, but both flows catch the exception: the EOL-table scrape returns
normally with an empty EOL map instead of propagating, and the
single-datasheet scrape returns normally with `None` instead of
propagating — contradicting the claim that these errors propagate to
the caller. -/
theorem scrape_errors_swallowed :
    scrape_meraki_eol_dates_body .transport ⟨2026, 1, 1, 0⟩ = .error () ∧
    scrape_meraki_eol_dates .transport ⟨2026, 1, 1, 0⟩ = [] ∧
    scrape_product_datasheet_body "MR" "MR46" .transport "2026-01-01T00:00:00" = .error () ∧
    scrape_product_datasheet "MR" "MR46" .transport "2026-01-01T00:00:00" = none :=
  ⟨rfl, rfl, rfl, rfl⟩

/-- C3 (amended): transport errors and non-2xx statuses are caught
inside both flows: the EOL-table scrape reports the failure and returns
an empty EOL map, and the single-datasheet scrape reports the failure
and returns `None` (as it also does on 404); neither propagates an
exception to its caller. -/
theorem scrape_errors_caught (now : PyDateTime) (category model nowIso : String) :
    scrape_meraki_eol_dates .transport now = [] ∧
    (∀ code doc, isHttpError code = true →
      scrape_meraki_eol_dates (.status code doc) now = []) ∧
    scrape_product_datasheet category model .transport nowIso = none ∧
    (∀ code doc, isHttpError code = true →
      scrape_product_datasheet category model (.status code doc) nowIso = none) := by
  refine ⟨rfl, ?_, rfl, ?_⟩
  · intro code doc h
    simp [scrape_meraki_eol_dates, scrape_meraki_eol_dates_body, h]
  · intro code doc h
    by_cases h404 : code = 404
    · simp [scrape_product_datasheet, scrape_product_datasheet_body, h404]
    · simp [scrape_product_datasheet, scrape_product_datasheet_body, h404, h]

/-- Witness for C3 (amended) at a concrete 500 response. -/
theorem scrape_errors_caught_witness :
    scrape_meraki_eol_dates (.status 500 emptyDoc) ⟨2026, 1, 1, 0⟩ = [] ∧
    scrape_product_datasheet "MR" "MR46" (.status 500 emptyDoc) "t0" = none :=
  ⟨(scrape_errors_caught ⟨2026, 1, 1, 0⟩ "MR" "MR46" "t0").2.1 500 emptyDoc (by decide),
   (scrape_errors_caught ⟨2026, 1, 1, 0⟩ "MR" "MR46" "t0").2.2.2 500 emptyDoc (by decide)⟩

/- ------------------------------------------------------------------ -/
/- Bulk MR scrape                                                     -/
/- ------------------------------------------------------------------ -/

/-- One attempt of `re.search(r'MR\d+[A-Z]*', text)` at the head. -/
def tryMrAt (cs : List Char) : Option (List Char) :=
  match cs with
  | 'M' :: 'R' :: rest =>
    let ds := rest.takeWhile isDigitChar
    if ds.isEmpty then none
    else some ('M' :: 'R' :: (ds ++ (rest.dropWhile isDigitChar).takeWhile isUpperChar))
  | _ => none

/-- Leftmost `MR\d+[A-Z]*` match. -/
def searchMr : List Char → Option (List Char)
  | [] => none
  | c :: cs =>
    match tryMrAt (c :: cs) with
    | some m => some m
    | none => searchMr cs

/-- Python string comparison (code-point lexicographic). -/
def charListLt : List Char → List Char → Bool
  | [], [] => false
  | [], _ :: _ => true
  | _ :: _, [] => false
  | a :: as, b :: bs => if a < b then true else if b < a then false else charListLt as bs

/-- `sorted(...)` on strings: insertion sort, ascending. -/
def insertSorted (x : String) : List String → List String
  | [] => [x]
  | y :: ys => if charListLt x.data y.data then x :: y :: ys else y :: insertSorted x ys

/-- `sorted(list(models))`. -/
def sortStrings (l : List String) : List String := l.foldr insertSorted []

/-- `set.add`: collect without duplicates (iteration order is irrelevant
because the result is sorted). -/
def addToSet (l : List String) (x : String) : List String :=
  if l.contains x then l else l ++ [x]

/-- The `try` block of `scrape_meraki_mr_models`
(src/utils/scarper.py:168-190): fetch the MR index page,
`raise_for_status`, then collect the first `MR\d+[A-Z]*` match of every
anchor text into a set and return it sorted. -/
def scrape_meraki_mr_models_body (f : FetchOutcome) : Except Unit (List String) :=
  match f with
  | .transport => .error ()
  | .status code doc =>
    if isHttpError code then .error ()
    else
      .ok (sortStrings (doc.links.foldl
        (fun acc text =>
          match searchMr text.data with
          | some m => addToSet acc (String.mk m)
          | none => acc)
        []))

/-- `CiscoMerakiScraper.scrape_meraki_mr_models`
(src/utils/scarper.py:159-194): errors are caught and yield the empty
list. -/
def scrape_meraki_mr_models (f : FetchOutcome) : List String :=
  match scrape_meraki_mr_models_body f with
  | .ok l => l
  | .error _ => []

/-- The per-model loop of `scrape_all_mr_datasheets`
(src/utils/scarper.py:302-327): scrape each model's datasheet; a `None`
result (404 or caught error) is skipped; a record is reconciled into the
store immediately and counted.  An exception escaping the store write
aborts the loop (`none`). -/
def mrLoop (dsF : String → FetchOutcome) (nowIso : String) :
    List String → Nat × Store → Option (Nat × Store)
  | [], acc => some acc
  | m :: ms, (k, st) =>
    match scrape_product_datasheet "MR" m (dsF m) nowIso with
    | none => mrLoop dsF nowIso ms (k, st)
    | some specs =>
      match upsert "mr" m specs st with
      | none => none
      | some st1 => mrLoop dsF nowIso ms (k + 1, st1)

/-- `CiscoMerakiScraper.scrape_all_mr_datasheets`
(src/utils/scarper.py:284-333): list the MR models from the index page
(empty list short-circuits with 0), then run the per-model loop,
returning the updated count and the final store. -/
def scrape_all_mr_datasheets (indexF : FetchOutcome) (dsF : String → FetchOutcome)
    (nowIso : String) (st : Store) : Option (Nat × Store) :=
  let models := scrape_meraki_mr_models indexF
  if models.isEmpty then some (0, st)
  else mrLoop dsF nowIso models (0, st)

theorem mrLoop_count (dsF : String → FetchOutcome) (nowIso : String) (ms : List String)
    (k : Nat) (st : Store) (n : Nat) (st' : Store)
    (h : mrLoop dsF nowIso ms (k, st) = some (n, st')) :
    n = k + ms.countP (fun m => (scrape_product_datasheet "MR" m (dsF m) nowIso).isSome) := by
  induction ms generalizing k st with
  | nil =>
    obtain ⟨rfl, rfl⟩ : k = n ∧ st = st' := by
      have h2 : (k, st) = (n, st') := by simpa [mrLoop] using h
      exact ⟨congrArg Prod.fst h2, congrArg Prod.snd h2⟩
    simp
  | cons m ms ih =>
    simp only [mrLoop] at h
    cases hds : scrape_product_datasheet "MR" m (dsF m) nowIso with
    | none =>
      simp only [hds] at h
      have hn := ih k st h
      simp [List.countP_cons, hds, hn]
    | some specs =>
      simp only [hds] at h
      cases hup : upsert "mr" m specs st with
      | none => simp [hup] at h
      | some st1 =>
        simp only [hup] at h
        have hn := ih (k + 1) st1 h
        simp [List.countP_cons, hds]
        omega

/-- The concrete MR index page of the C4 scenario: anchors for MR20,
MR46 and MR99. -/
def idxDocC4 : Doc := ⟨[], ["Meraki MR20 overview", "MR46 Datasheet", "MR99 Datasheet"], ""⟩

/-- Index fetch outcome of the C4 scenario. -/
def idxFC4 : FetchOutcome := .status 200 idxDocC4

/-- Per-model fetch outcomes of the C4 scenario: MR99's datasheet is a
404, the others succeed. -/
def dsFC4 : String → FetchOutcome :=
  fun m => if m = "MR99" then .status 404 emptyDoc else .status 200 emptyDoc

/-- Initial store of the C4 scenario: an empty `mr` collection. -/
def stC4 : Store := [("mr", [])]

/-- C4: in the bulk MR scrape a 404 on one model's datasheet is a soft
failure: the model is skipped, the loop continues, and the returned
count equals the number of models whose datasheet scrape produced a
record; in the concrete scenario with models MR20, MR46, MR99 where
MR99's fetch is a 404, MR20 and MR46 are processed (their records exist
in the final store, MR99's does not) and the count is 2. -/
theorem bulk_mr_scrape_404_soft :
    (∀ (dsF : String → FetchOutcome) (nowIso : String) (indexF : FetchOutcome)
      (st : Store) (n : Nat) (st' : Store),
      scrape_all_mr_datasheets indexF dsF nowIso st = some (n, st') →
      n = (scrape_meraki_mr_models indexF).countP
        (fun m => (scrape_product_datasheet "MR" m (dsF m) nowIso).isSome)) ∧
    scrape_meraki_mr_models idxFC4 = ["MR20", "MR46", "MR99"] ∧
    (scrape_all_mr_datasheets idxFC4 dsFC4 "t0" stC4).map Prod.fst = some 2 ∧
    ((scrape_all_mr_datasheets idxFC4 dsFC4 "t0" stC4).bind
      (fun r => get_product_by_id "mr20" r.2)).isSome = true ∧
    ((scrape_all_mr_datasheets idxFC4 dsFC4 "t0" stC4).bind
      (fun r => get_product_by_id "mr46" r.2)).isSome = true ∧
    ((scrape_all_mr_datasheets idxFC4 dsFC4 "t0" stC4).bind
      (fun r => get_product_by_id "mr99" r.2)).isSome = false := by
  refine ⟨?_, by decide, rfl, rfl, rfl, rfl⟩
  intro dsF nowIso indexF st n st' h
  unfold scrape_all_mr_datasheets at h
  by_cases he : (scrape_meraki_mr_models indexF).isEmpty
  · simp only [he, if_pos] at h
    obtain rfl : (0 : Nat) = n := by
      have h2 : ((0 : Nat), st) = (n, st') := by simpa using h
      exact congrArg Prod.fst h2
    rw [List.isEmpty_iff.mp he]
    simp
  · simp only [he, Bool.false_eq_true, if_false] at h
    simpa using mrLoop_count dsF nowIso _ 0 st n st' h

/-- Witness for C4: the counting clause applied to the concrete
scenario. -/
theorem bulk_mr_scrape_404_soft_witness :
    2 = (scrape_meraki_mr_models idxFC4).countP
      (fun m => (scrape_product_datasheet "MR" m (dsFC4 m) "t0").isSome) := by
  rcases hx : scrape_all_mr_datasheets idxFC4 dsFC4 "t0" stC4 with _ | ⟨n, st'⟩
  · have h2 := bulk_mr_scrape_404_soft.2.2.1
    rw [hx] at h2
    cases h2
  · have hn := bulk_mr_scrape_404_soft.1 dsFC4 "t0" idxFC4 stC4 n st' hx
    have h2 : n = 2 := by
      have h3 := bulk_mr_scrape_404_soft.2.2.1
      rw [hx] at h3
      simpa using h3
    rw [← h2, hn]

/- ------------------------------------------------------------------ -/
/- Database EOL update                                                -/
/- ------------------------------------------------------------------ -/

/-- Python `str.split()` with no separator: split on whitespace runs,
dropping empty tokens (fuel-driven; the fuel is the character count). -/
def pySplitAux : Nat → List Char → List String
  | 0, _ => []
  | _, [] => []
  | fuel + 1, c :: cs =>
    if c.isWhitespace then pySplitAux fuel cs
    else
      String.mk ((c :: cs).takeWhile (fun d => !d.isWhitespace)) ::
        pySplitAux fuel (cs.dropWhile (fun d => !d.isWhitespace))

/-- Python `s.split()`. -/
def pySplit (s : String) : List String := pySplitAux s.data.length s.data

/-- `product.get(key, '')` followed by a string method: the default `''`
for a missing key, the string itself for a string value, and an
`AttributeError` (here `Except.error`) for a non-string value. -/
def pyGetStr (p : PDict) (k : String) : Except Unit String :=
  match p k with
  | none => .ok ""
  | some (.str s) => .ok s
  | some _ => .error ()

/-- The three field assignments of `update_product_database_with_eol`
(src/utils/scarper.py:271-273): overwrite `eol_announced`, `eos_date`
and `status` with the entry's values. -/
def eolPatch (p : PDict) (e : EolEntry) : PDict :=
  pyInsert (pyInsert (pyInsert p "eol_announced" (optToJVal e.eol_announced))
    "eos_date" (optToJVal e.eos_date)) "status" (.str e.status)

/-- The per-product body of `update_product_database_with_eol`
(src/utils/scarper.py:262-279): compute the lowercased id and the
lowercased last whitespace token of the display name (an empty token
list is an `IndexError`), look the id up in the EOL map and fall back to
the name token (entries are nonempty dicts, hence truthy, so Python's
`or` is the option-or), and on a hit overwrite the three fields, persist
and count. -/
def updStep (category : String) (eol : EolMap) (acc : Nat × Store) (p : PDict) :
    Except Unit (Nat × Store) :=
  match pyGetStr p "id", pyGetStr p "name" with
  | .ok i, .ok nm =>
    match (pySplit nm).getLast? with
    | none => .error ()
    | some tk =>
      match Option.or (eolGet eol (pyLower i)) (eolGet eol (pyLower tk)) with
      | some e =>
        match save_product category (eolPatch p e) acc.2 with
        | none => .error ()
        | some st1 => .ok (acc.1 + 1, st1)
      | none => .ok acc
  | _, _ => .error ()

/-- One category pass of `update_product_database_with_eol`
(src/utils/scarper.py:259-279): snapshot the category's product list,
then fold the per-product step over it (the snapshot is fixed while the
store evolves, as the source's local `products` list is). -/
def updCategory (eol : EolMap) (category : String) (acc : Nat × Store) :
    Except Unit (Nat × Store) :=
  (get_products_by_category category acc.2).foldlM (updStep category eol) acc

/-- `CiscoMerakiScraper.update_product_database_with_eol`
(src/utils/scarper.py:239-282): scrape the EOL map (an empty map returns
0 immediately), then process the categories mr, mx, ms, mv in order,
returning the number of products for which an entry was found and
written.  Exceptions inside the loop propagate (`Except.error`). -/
def update_product_database_with_eol (f : FetchOutcome) (now : PyDateTime) (st : Store) :
    Except Unit (Nat × Store) :=
  if (scrape_meraki_eol_dates f now).isEmpty then .ok (0, st)
  else
    ["mr", "mx", "ms", "mv"].foldlM
      (fun acc cat => updCategory (scrape_meraki_eol_dates f now) cat acc) (0, st)

theorem save_preserves_other_category (cat : String) (q : PDict) (st st' : Store)
    (c : String) (h : save_product cat q st = some st') (hc : pyLower c ≠ pyLower cat) :
    get_products_by_category c st' = get_products_by_category c st := by
  induction st generalizing st' with
  | nil => simp [save_product] at h
  | cons e rest ih =>
    obtain ⟨k, l⟩ := e
    simp only [save_product] at h
    by_cases hk : k = pyLower cat
    · simp only [if_pos hk] at h
      cases hu : upsertList q l with
      | none => simp [hu] at h
      | some l2 =>
        simp only [hu, Option.map_some'] at h
        obtain rfl : (k, l2) :: rest = st' := by simpa using h
        have hcc : ¬ (pyLower cat = pyLower c) := fun hx => hc hx.symm
        simp [get_products_by_category, List.find?_cons, hk, hcc]
    · simp only [if_neg hk] at h
      cases hrec : save_product cat q rest with
      | none => simp [hrec] at h
      | some rest' =>
        simp only [hrec, Option.map_some'] at h
        obtain rfl : (k, l) :: rest' = st' := by simpa using h
        by_cases hkc : k = pyLower c
        · simp [get_products_by_category, List.find?_cons, hkc]
        · have hr := ih rest' hrec
          simp only [get_products_by_category, List.find?_cons, hkc] at hr ⊢
          simpa using hr

theorem updStep_preserves_other_category (category : String) (eol : EolMap)
    (acc : Nat × Store) (p : PDict) (res : Nat × Store) (c : String)
    (h : updStep category eol acc p = .ok res) (hc : pyLower c ≠ pyLower category) :
    get_products_by_category c res.2 = get_products_by_category c acc.2 := by
  unfold updStep at h
  cases hi : pyGetStr p "id" with
  | error e => simp [hi] at h
  | ok i =>
    cases hn : pyGetStr p "name" with
    | error e => simp [hi, hn] at h
    | ok nm =>
      simp only [hi, hn] at h
      cases hlast : (pySplit nm).getLast? with
      | none => simp [hlast] at h
      | some tk =>
        simp only [hlast] at h
        cases hhit : Option.or (eolGet eol (pyLower i)) (eolGet eol (pyLower tk)) with
        | none =>
          simp only [hhit] at h
          obtain rfl : acc = res := by simpa using h
          rfl
        | some e =>
          simp only [hhit] at h
          cases hsave : save_product category (eolPatch p e) acc.2 with
          | none => simp [hsave] at h
          | some st1 =>
            simp only [hsave] at h
            obtain rfl : (acc.1 + 1, st1) = res := by simpa using h
            exact save_preserves_other_category category (eolPatch p e) acc.2 st1 c hsave hc

theorem foldlM_updStep_preserves (category : String) (eol : EolMap) (c : String)
    (hc : pyLower c ≠ pyLower category) (l : List PDict) (acc res : Nat × Store)
    (h : l.foldlM (updStep category eol) acc = .ok res) :
    get_products_by_category c res.2 = get_products_by_category c acc.2 := by
  induction l generalizing acc with
  | nil =>
    obtain rfl : acc = res := Except.ok.inj h
    rfl
  | cons p rest ih =>
    simp only [List.foldlM_cons, bind, Except.bind] at h
    cases hstep : updStep category eol acc p with
    | error e => simp [hstep] at h
    | ok acc1 =>
      simp only [hstep] at h
      have h2 := ih acc1 h
      rw [h2, updStep_preserves_other_category category eol acc p acc1 c hstep hc]

theorem updCategory_preserves (eol : EolMap) (category : String) (acc res : Nat × Store)
    (c : String) (h : updCategory eol category acc = .ok res)
    (hc : pyLower c ≠ pyLower category) :
    get_products_by_category c res.2 = get_products_by_category c acc.2 :=
  foldlM_updStep_preserves category eol c hc _ acc res h

theorem updStep_error_of_bad_name (category : String) (eol : EolMap) (acc : Nat × Store)
    (p : PDict)
    (hbad : p "name" = none ∨ ∃ nm, p "name" = some (JVal.str nm) ∧ pySplit nm = []) :
    updStep category eol acc p = .error () := by
  unfold updStep
  cases hi : pyGetStr p "id" with
  | error e => cases hname2 : pyGetStr p "name" <;> rfl
  | ok i =>
    rcases hbad with hn | ⟨nm, hn, hsplit⟩
    · have hname : pyGetStr p "name" = .ok "" := by simp [pyGetStr, hn]
      have hemp : pySplit "" = [] := rfl
      simp [hname, hemp]
    · have hname : pyGetStr p "name" = .ok nm := by simp [pyGetStr, hn]
      simp [hname, hsplit]

theorem foldlM_updStep_error (category : String) (eol : EolMap) (p : PDict)
    (hp_err : ∀ acc, updStep category eol acc p = .error ()) :
    ∀ (l : List PDict) (acc : Nat × Store), p ∈ l →
      l.foldlM (updStep category eol) acc = .error () := by
  intro l
  induction l with
  | nil =>
    intro acc hmem
    cases hmem
  | cons q rest ih =>
    intro acc hmem
    simp only [List.foldlM_cons, bind, Except.bind]
    rcases List.mem_cons.mp hmem with rfl | hmem2
    · simp only [hp_err acc]
    · cases hstep : updStep category eol acc q with
      | error e => simp [hstep]
      | ok acc1 =>
        simp only [hstep]
        exact ih acc1 hmem2

/- ------------------------------------------------------------------ -/
/- C10: empty display name crashes the EOL update                     -/
/- ------------------------------------------------------------------ -/

/-- C10: whenever the scraped EOL map is nonempty (so that the product
loop actually runs; an empty map returns 0 before any product is
touched), a product in one of the categories mr, mx, ms, mv whose
display name is absent, empty or whitespace-only makes the flow index
into an empty token list (`.split()[-1]`), and the resulting error
aborts the whole operation: the update is total only under the
precondition that every such product has a non-empty display name. -/
theorem eol_update_crashes_on_empty_name (f : FetchOutcome) (now : PyDateTime) (st : Store)
    (c : String) (p : PDict)
    (hne : (scrape_meraki_eol_dates f now).isEmpty = false)
    (hc : c ∈ (["mr", "mx", "ms", "mv"] : List String))
    (hp : p ∈ get_products_by_category c st)
    (hbad : p "name" = none ∨ ∃ nm, p "name" = some (JVal.str nm) ∧ pySplit nm = []) :
    update_product_database_with_eol f now st = .error () := by
  unfold update_product_database_with_eol
  simp only [hne, Bool.false_eq_true, if_false]
  have herr : ∀ acc : Nat × Store,
      get_products_by_category c acc.2 = get_products_by_category c st →
      updCategory (scrape_meraki_eol_dates f now) c acc = .error () := by
    intro acc hacc
    unfold updCategory
    rw [hacc]
    exact foldlM_updStep_error c (scrape_meraki_eol_dates f now) p
      (fun acc' => updStep_error_of_bad_name c (scrape_meraki_eol_dates f now) acc' p hbad)
      _ acc hp
  simp only [List.foldlM_cons, List.foldlM_nil, bind, Except.bind]
  simp only [List.mem_cons, List.not_mem_nil, or_false] at hc
  rcases hc with rfl | rfl | rfl | rfl
  · simp only [herr (0, st) rfl]
  · cases h1 : updCategory (scrape_meraki_eol_dates f now) "mr" (0, st) with
    | error e => simp [h1]
    | ok a1 =>
      have hp1 : get_products_by_category "mx" a1.2 = get_products_by_category "mx" st := by
        simpa using updCategory_preserves _ "mr" (0, st) a1 "mx" h1 (by decide)
      simp only [h1, herr a1 hp1]
  · cases h1 : updCategory (scrape_meraki_eol_dates f now) "mr" (0, st) with
    | error e => simp [h1]
    | ok a1 =>
      cases h2 : updCategory (scrape_meraki_eol_dates f now) "mx" a1 with
      | error e => simp [h1, h2]
      | ok a2 =>
        have hp1 : get_products_by_category "ms" a1.2 = get_products_by_category "ms" st := by
          simpa using updCategory_preserves _ "mr" (0, st) a1 "ms" h1 (by decide)
        have hp2 : get_products_by_category "ms" a2.2 = get_products_by_category "ms" st := by
          rw [← hp1]
          exact updCategory_preserves _ "mx" a1 a2 "ms" h2 (by decide)
        simp only [h1, h2, herr a2 hp2]
  · cases h1 : updCategory (scrape_meraki_eol_dates f now) "mr" (0, st) with
    | error e => simp [h1]
    | ok a1 =>
      cases h2 : updCategory (scrape_meraki_eol_dates f now) "mx" a1 with
      | error e => simp [h1, h2]
      | ok a2 =>
        cases h3 : updCategory (scrape_meraki_eol_dates f now) "ms" a2 with
        | error e => simp [h1, h2, h3]
        | ok a3 =>
          have hp1 : get_products_by_category "mv" a1.2 = get_products_by_category "mv" st := by
            simpa using updCategory_preserves _ "mr" (0, st) a1 "mv" h1 (by decide)
          have hp2 : get_products_by_category "mv" a2.2 = get_products_by_category "mv" st := by
            rw [← hp1]
            exact updCategory_preserves _ "mx" a1 a2 "mv" h2 (by decide)
          have hp3 : get_products_by_category "mv" a3.2 = get_products_by_category "mv" st := by
            rw [← hp2]
            exact updCategory_preserves _ "ms" a2 a3 "mv" h3 (by decide)
          simp only [h1, h2, h3, herr a3 hp3]

/-- A concrete EOL page: a header row and one data row announcing
Meraki MR18 with EOL January 1, 2020 and EOS January 1, 2021. -/
def eolDocC10 : Doc :=
  ⟨[[[⟨true, "Product"⟩, ⟨true, "EOL Announced"⟩, ⟨true, "End of Sale"⟩],
     [⟨false, "Meraki MR18"⟩, ⟨false, "January 1, 2020"⟩, ⟨false, "January 1, 2021"⟩]]],
   [], ""⟩

/-- Fetch outcome delivering `eolDocC10` with status 200. -/
def eolFC10 : FetchOutcome := .status 200 eolDocC10

/-- A fixed "now" (2026-01-01 midnight) for the database-update
scenarios. -/
def nowC10 : PyDateTime := ⟨2026, 1, 1, 0⟩

/-- A product record with an `id` but no `name` key. -/
def pBadC10 : PDict := fun k => if k = "id" then some (JVal.str "mr18") else none

/-- Store holding only the nameless product, in category `mr`. -/
def stC10 : Store := [("mr", [pBadC10])]

/-- Witness for C10 at the concrete scenario: one EOL row scraped, one
nameless product in `mr`, and the flow fails. -/
theorem eol_update_crashes_on_empty_name_witness :
    update_product_database_with_eol eolFC10 nowC10 stC10 = .error () :=
  eol_update_crashes_on_empty_name eolFC10 nowC10 stC10 "mr" pBadC10 (by decide)
    (by simp) (List.mem_cons_self _ _) (Or.inl rfl)

/- ------------------------------------------------------------------ -/
/- C7: the EOL database update                                        -/
/- ------------------------------------------------------------------ -/

/-- The EOL entry the scrape of `eolDocC10` produces for key "mr18". -/
def eC7 : EolEntry :=
  ⟨some "2020-01-01", some "2021-01-01", "End of Sale", "Meraki MR18"⟩

/-- A product whose three EOL fields already hold exactly the scraped
entry's values. -/
def pC7 : PDict := fun k =>
  if k = "id" then some (JVal.str "mr18")
  else if k = "name" then some (JVal.str "Meraki MR18")
  else if k = "eol_announced" then some (JVal.str "2020-01-01")
  else if k = "eos_date" then some (JVal.str "2021-01-01")
  else if k = "status" then some (JVal.str "End of Sale")
  else none

/-- Store holding only the already-up-to-date product, in `mr`. -/
def stC7 : Store := [("mr", [pC7])]

theorem eolPatch_pC7 : eolPatch pC7 eC7 = pC7 := by
  funext k
  simp only [eolPatch, pyInsert, pC7, eC7, optToJVal]
  split_ifs <;> simp_all

/-- C7 counterexample: the claim says the operation returns the number
of products actually changed.  On a store whose single product already
carries exactly the scraped values, nothing changes (the final store is
the initial store), yet the operation returns 1: it counts map hits,
not actual changes. -/
theorem eol_update_count_not_changes :
    update_product_database_with_eol eolFC10 nowC10 stC7 = .ok (1, stC7) := by
  have hmap : scrape_meraki_eol_dates eolFC10 nowC10 = [("mr18", eC7)] := by decide
  have hid : pyGetStr pC7 "id" = .ok "mr18" := rfl
  have hnm : pyGetStr pC7 "name" = .ok "Meraki MR18" := rfl
  have hlast : (pySplit "Meraki MR18").getLast? = some "MR18" := by decide
  have hhit : Option.or (eolGet [("mr18", eC7)] (pyLower "mr18"))
      (eolGet [("mr18", eC7)] (pyLower "MR18")) = some eC7 := by
    decide
  have hstep : updStep "mr" [("mr18", eC7)] (0, stC7) pC7 = .ok (1, stC7) := by
    unfold updStep
    simp only [hid, hnm, hlast, hhit, eolPatch_pC7]
    rfl
  have hcat1 : updCategory [("mr18", eC7)] "mr" (0, stC7) = .ok (1, stC7) := by
    unfold updCategory
    have hgp : get_products_by_category "mr" (0, stC7).2 = [pC7] := rfl
    rw [hgp]
    simp only [List.foldlM_cons, List.foldlM_nil, bind, Except.bind, hstep]
    rfl
  have hcat2 : updCategory [("mr18", eC7)] "mx" (1, stC7) = .ok (1, stC7) := rfl
  have hcat3 : updCategory [("mr18", eC7)] "ms" (1, stC7) = .ok (1, stC7) := rfl
  have hcat4 : updCategory [("mr18", eC7)] "mv" (1, stC7) = .ok (1, stC7) := rfl
  unfold update_product_database_with_eol
  simp only [hmap, List.isEmpty_cons, Bool.false_eq_true, if_false,
    List.foldlM_cons, List.foldlM_nil, bind, Except.bind, hcat1, hcat2, hcat3, hcat4]
  rfl

/-- A product hit through its `id`, whose stored values differ from the
entry. -/
def pHit1 : PDict := fun k =>
  if k = "id" then some (JVal.str "mr18")
  else if k = "name" then some (JVal.str "Meraki MR18")
  else if k = "status" then some (JVal.str "Active")
  else none

/-- A product hit only through the last token of its display name. -/
def pHit2 : PDict := fun k =>
  if k = "id" then some (JVal.str "mr18-hw-bundle")
  else if k = "name" then some (JVal.str "Cisco MR18")
  else none

/-- A product matching no EOL entry. -/
def pMiss : PDict := fun k =>
  if k = "id" then some (JVal.str "ms120")
  else if k = "name" then some (JVal.str "Meraki MS120")
  else none

/-- Store for the C7 hit-counting demonstration. -/
def stC7amd : Store := [("mr", [pHit1]), ("mx", [pHit2, pMiss])]

/-- C7 (amended): for every product of the categories mr, mx, ms, mv the
flow looks the scraped EOL map up by the product's lowercased `id`
first, then by the lowercased last whitespace token of its display name;
on a hit it overwrites exactly `eol_announced`, `eos_date` and `status`
with the entry's values, leaves every other field untouched, persists
via the store's save operation and counts the product; on a miss it
leaves store and count alone.  The returned count is therefore the
number of products for which an entry was found and written — which may
exceed the number of products actually changed (see the
counterexample). -/
theorem eol_update_behavior :
    (∀ (category : String) (eol : EolMap) (k : Nat) (st : Store) (p : PDict)
      (i nm tk : String) (e : EolEntry),
      pyGetStr p "id" = .ok i → pyGetStr p "name" = .ok nm →
      (pySplit nm).getLast? = some tk →
      Option.or (eolGet eol (pyLower i)) (eolGet eol (pyLower tk)) = some e →
      updStep category eol (k, st) p =
        (match save_product category (eolPatch p e) st with
          | none => .error ()
          | some st1 => .ok (k + 1, st1))) ∧
    (∀ (category : String) (eol : EolMap) (k : Nat) (st : Store) (p : PDict)
      (i nm tk : String),
      pyGetStr p "id" = .ok i → pyGetStr p "name" = .ok nm →
      (pySplit nm).getLast? = some tk →
      Option.or (eolGet eol (pyLower i)) (eolGet eol (pyLower tk)) = none →
      updStep category eol (k, st) p = .ok (k, st)) ∧
    (∀ (p : PDict) (e : EolEntry),
      eolPatch p e "eol_announced" = some (optToJVal e.eol_announced) ∧
      eolPatch p e "eos_date" = some (optToJVal e.eos_date) ∧
      eolPatch p e "status" = some (JVal.str e.status) ∧
      (∀ k, ¬ k = "eol_announced" → ¬ k = "eos_date" → ¬ k = "status" →
        eolPatch p e k = p k)) ∧
    (update_product_database_with_eol eolFC10 nowC10 stC7amd).map Prod.fst = .ok 2 := by
  refine ⟨?_, ?_, ?_, ?_⟩
  · intro category eol k st p i nm tk e h1 h2 h3 h4
    unfold updStep
    simp only [h1, h2, h3, h4]
  · intro category eol k st p i nm tk h1 h2 h3 h4
    unfold updStep
    simp only [h1, h2, h3, h4]
  · intro p e
    refine ⟨?_, ?_, ?_, ?_⟩
    · simp [eolPatch, pyInsert]
    · simp [eolPatch, pyInsert]
    · simp [eolPatch, pyInsert]
    · intro k hk1 hk2 hk3
      simp [eolPatch, pyInsert, hk1, hk2, hk3]
  · rfl

/-- Witness for C7 (amended): the lookup-miss clause and the
field-overwrite clause instantiated at concrete records. -/
theorem eol_update_behavior_witness :
    updStep "mr" [("mr18", eC7)] (0, stC7amd) pMiss = .ok (0, stC7amd) ∧
    updStep "mr" [("mr18", eC7)] (0, stC7amd) pHit1 =
      (match save_product "mr" (eolPatch pHit1 eC7) stC7amd with
        | none => .error ()
        | some st1 => .ok (1, st1)) ∧
    eolPatch pHit1 eC7 "status" = some (JVal.str eC7.status) ∧
    eolPatch pHit1 eC7 "name" = pHit1 "name" := by
  refine ⟨?_, ?_, ?_, ?_⟩
  · exact eol_update_behavior.2.1 "mr" [("mr18", eC7)] 0 stC7amd pMiss "ms120" "Meraki MS120"
      "MS120" rfl rfl (by decide) (by decide)
  · exact eol_update_behavior.1 "mr" [("mr18", eC7)] 0 stC7amd pHit1 "mr18" "Meraki MR18"
      "MR18" eC7 rfl rfl (by decide) (by decide)
  · exact (eol_update_behavior.2.2.1 pHit1 eC7).2.2.1
  · exact (eol_update_behavior.2.2.1 pHit1 eC7).2.2.2 "name" (by decide) (by decide) (by decide)
